import Mathlib

/-!
Verification of the calldata-decoder crate (src/src/lib.rs).

The Rust source is shallowly embedded below. Hex strings are lists of
characters (`Str`). Rust operations that can panic (unchecked `Vec`/`str`
indexing, `split_at` out of range, `unimplemented!()`, `U128::as_usize`
overflow) are modelled with `Option` (`none` = panic) or `Except Err`
(`.error .crash` = panic); the only loop (`parse_raw_params`) takes a fuel
parameter, with `.error .fuel` marking fuel exhaustion, never a result of
the embedded code itself.

Items of this crate that are not under src/ (constants.rs and
type_guesser.rs: the byte-pattern constants and the `Types` / `ParamTypes` /
`Params` containers) are modelled from the spec and carry a doc comment
saying so.
-/

set_option maxRecDepth 8000

abbrev Str := List Char

def str (s : String) : Str := s.data

/-- Panic (`crash`) or fuel exhaustion (`fuel`) of the embedded Rust code. -/
inductive Err where
  | crash
  | fuel
deriving Repr, DecidableEq

instance {e a : Type} [DecidableEq e] [DecidableEq a] : DecidableEq (Except e a) := fun x y =>
  match x, y with
  | .ok v, .ok w => if h : v = w then isTrue (by rw [h]) else isFalse (by simp [h])
  | .error v, .error w => if h : v = w then isTrue (by rw [h]) else isFalse (by simp [h])
  | .ok _, .error _ => isFalse (by simp)
  | .error _, .ok _ => isFalse (by simp)

/-- Fuel-driven core of `chunkify`: structural recursion (so that the
kernel can evaluate it on concrete inputs). The fuel only needs to bound the
number of chunks; each chunk holds at least one character, so the text's
length is always enough, and the fuel = 0 fallback is unreachable then. -/
def chunksGo (n : Nat) : Nat → Str → List Str
  | _, [] => []
  | 0, _ :: _ => []
  | f + 1, c :: cs => (c :: cs.take n) :: chunksGo n f (cs.drop n)

/-- Core of `chunkify` for a positive chunk size `n + 1`:
`calldata.chars().collect::<Vec<char>>().chunks(n + 1)`. -/
def chunksOfPos (n : Nat) (s : Str) : List Str := chunksGo n s.length s

/-- Source `chunkify(calldata, size)` (lib.rs 14-21). Rust's `slice::chunks`
panics when the chunk size is zero, hence the `Option`. -/
def chunkify (s : Str) (size : Nat) : Option (List Str) :=
  match size with
  | 0 => none
  | n + 1 => some (chunksOfPos n s)

/-- Fuel-driven core of `replaceAll` (structural recursion for kernel
evaluation; every step consumes at least one character, so the string's
length is always enough fuel). -/
def replaceGo (pat : Str) : Nat → Str → Str
  | _, [] => []
  | 0, s => s
  | f + 1, c :: cs =>
    if pat ≠ [] ∧ pat.isPrefixOf (c :: cs) = true then
      replaceGo pat f (List.drop (pat.length - 1) cs)
    else
      c :: replaceGo pat f cs

/-- Rust `str::replace(pat, "")`: remove the non-overlapping occurrences of
`pat`, scanning left to right (an empty pattern leaves the string unchanged,
as replacement by the empty string does in Rust). -/
def replaceAll (pat : Str) (s : Str) : Str := replaceGo pat s.length s

def hexDigitVal (c : Char) : Option Nat :=
  if '0' ≤ c ∧ c ≤ '9' then some (c.toNat - '0'.toNat)
  else if 'a' ≤ c ∧ c ≤ 'f' then some (c.toNat - 'a'.toNat + 10)
  else if 'A' ≤ c ∧ c ≤ 'F' then some (c.toNat - 'A'.toNat + 10)
  else none

def hexValAux : Nat → Str → Option Nat
  | acc, [] => some acc
  | acc, c :: cs =>
    match hexDigitVal c with
    | none => none
    | some d => hexValAux (acc * 16 + d) cs

/-- `UInt::from_str_radix(s, 16)` of the ethers fixed-width integers:
`Err` on an empty slice, on a non-hex character, and on overflow of the
target width. (For every input reaching this function in the claims below,
the parsed slice is far below any width bound, so the exact overflow rule is
unobservable.) -/
def from_str_radix_16 (width : Nat) (s : Str) : Option Nat :=
  match s with
  | [] => none
  | _ :: _ =>
    match hexValAux 0 s with
    | none => none
    | some v => if v < 2 ^ width then some v else none

def u128_from_str_radix (s : Str) : Option Nat := from_str_radix_16 128 s

def u256_from_str_radix (s : Str) : Option Nat := from_str_radix_16 256 s

/-- `U128::as_usize()`: panics when the value does not fit in 64 bits. -/
def as_usize (v : Nat) : Except Err Nat :=
  if v < 2 ^ 64 then .ok v else .error .crash

/-- `U128::as_usize()` in an `Option` (panic = `none`) context. -/
def as_usizeO (v : Nat) : Option Nat :=
  if v < 2 ^ 64 then some v else none

/-- Modelled from the spec: constants.rs is not under src/. `EMPTY_4` is the
all-zero 4-byte (8 hex digit) pattern (spec section 4.4: a 4-byte half that is
"all-zero"). -/
def EMPTY_4 : Str := List.replicate 8 '0'

/-- Modelled from the spec: constants.rs is not under src/. `MASK_4` is the
all-ones 4-byte pattern, "0xFFFFFFFF" (spec section 4.4). -/
def MASK_4 : Str := List.replicate 8 'f'

/-- Modelled from the spec: constants.rs is not under src/. `EMPTY_32` is the
all-zero 32-byte word, "all 64 digits zero" (spec sections 4.3 and 4.6). -/
def EMPTY_32 : Str := List.replicate 64 '0'

/-- Modelled from the spec: constants.rs is not under src/. `MAX_U256` is the
word whose 64 digits are all the maximum hex digit, value 2^256 - 1
(spec section 4.6). -/
def MAX_U256 : Str := List.replicate 64 'f'

/-- Modelled from the spec: constants.rs is not under src/. `MAX_U128` is the
word of 32 hex "f" digits followed by 32 zero digits, Scenario A of spec
section 8 ("word = 32 hex \x22f\x22 digits followed by 32 zero digits ->
\x7bMaxUint128\x7d"). -/
def MAX_U128 : Str := List.replicate 32 'f' ++ List.replicate 32 '0'

/-- Source `add_padding(chunks, current, side)` (lib.rs 29-40):
`chunks[current]` gets `EMPTY_4` glued on (front when `side`), the last
element is cut down to its first 56 characters (`split_at(56).0`, a panic when
it is shorter than 56), and the concatenation is re-chunked into 64s.
`none` = panic. -/
def add_padding (chunks : List Str) (current : Nat) (side : Bool) : Option (List Str) :=
  match chunks.get? current with
  | none => none
  | some w =>
    let chunks1 := chunks.set current (if side then EMPTY_4 ++ w else w ++ EMPTY_4)
    match chunks1.get? (chunks1.length - 1) with
    | none => none
    | some last =>
      if 56 ≤ last.length then
        chunkify ((chunks1.set (chunks1.length - 1) (last.take 56)).flatten) 64
      else none

/-- Source `try_parse_selector(calldata)` (lib.rs 47-56). The word is cut
into 8-digit chunks; `chunks[0] != EMPTY_4 && chunks[1] == EMPTY_4 &&
chunks[0] != MASK_4` (short-circuit: `chunks[1]` is only touched when the
first test holds) detects a selector, which is then blanked to the empty
string inside the word (`chunks[0].replace(&chunks[0], "")`) before the
chunks are re-joined. `none` = an index panic. -/
def try_parse_selector (calldata : Str) : Option (Str × Str) :=
  let chunks := chunksOfPos 7 calldata
  match chunks.get? 0 with
  | none => none
  | some c0 =>
    if c0 = EMPTY_4 then some (EMPTY_4, chunks.flatten)
    else
      match chunks.get? 1 with
      | none => none
      | some c1 =>
        if c1 = EMPTY_4 ∧ c0 ≠ MASK_4 then
          some (c0, (chunks.set 0 (replaceAll c0 c0)).flatten)
        else some (EMPTY_4, chunks.flatten)

/-- Source `rearrange_chunks(chunks, from, replacement)` (lib.rs 66-78):
`chunks[from]` is replaced, `EMPTY_4` is appended to the concatenation, and
the whole is re-chunked into 64s. `none` = the `new_chunks[from]` index
panic. -/
def rearrange_chunks (chunks : List Str) (idx : Nat) (replacement : Str) :
    Option (List Str × Str) :=
  match chunks.get? idx with
  | none => none
  | some _ =>
    let new_calldata := (chunks.set idx replacement).flatten ++ EMPTY_4
    some (chunksOfPos 63 new_calldata, new_calldata)

/-- Source `last_raw(params, current)` (lib.rs 85-90): `None` when
`current == 0`, otherwise `Some(params[current - 1])` — an unchecked index,
so the outer `Option` is the panic and the inner one is the Rust `Option`. -/
def last_raw (params : List Str) (current : Nat) : Option (Option Str) :=
  match current with
  | 0 => some none
  | n + 1 =>
    match params.get? n with
    | none => none
    | some w => some (some w)

/-- Modelled from the spec: type_guesser.rs is not under src/. `Types` is the
closed enumeration of semantic type tags of spec section 3
(TypeCandidateSet). -/
inductive Types where
  | Selector
  | String
  | Bytes
  | Int
  | Uint
  | Uint8
  | Bytes1
  | Bool
  | Address
  | Bytes20
  | AnyZero
  | MaxUint128
  | AnyMax
deriving Repr, DecidableEq

/-- Modelled from the spec: type_guesser.rs is not under src/. A
`TypeCandidateSet` is an ordered container of tags (spec section 3). -/
abbrev ParamTypes := List Types

/-- Modelled from the spec: `ParamTypes::new` wraps the tag list. -/
def ParamTypes.new (l : List Types) : ParamTypes := l

/-- Modelled from the spec: type_guesser.rs is not under src/. `Params` is
one CallRecord: a selector, its word sequence, and the per-word candidate
types once computed (spec sections 3 and 6). -/
structure Params where
  selector : Str
  params : List Str
  types : List ParamTypes
deriving Repr, DecidableEq

/-- Modelled from the spec: `Params::new(selector, params)` starts with no
computed types. -/
def Params.new (sel : Str) (ps : List Str) : Params := ⟨sel, ps, []⟩

/-- Tail of `guess_param_type` from the address check on (lib.rs 144-163). -/
def guess_tail (param : Str) : Option ParamTypes :=
  if (param.dropWhile (fun c => c = '0')).length = 40 then
    some (ParamTypes.new [.Address, .Bytes20, .Uint])
  else
    match u256_from_str_radix param with
    | some v =>
      if v ≤ 1 then some (ParamTypes.new [.Uint8, .Bytes1, .Bool])
      else if v ≤ 8 then some (ParamTypes.new [.Uint8, .Bytes1])
      else some (ParamTypes.new [.Uint, .Int, .Bytes])
    | none => some (ParamTypes.new [.Uint, .Int, .Bytes])

/-- Source `guess_param_type(param)` (lib.rs 113-164). The maxed-out
patterns come first; then the selector test
`chunks[0] != EMPTY_4 && chunks[0] != MASK_4 && chunks[1] == EMPTY_4`
(short-circuit left to right), then the `Int` test on `chunks[0] == MASK_4`,
then `guess_tail`. `none` = an index panic on a short word. -/
def guess_param_type (param : Str) : Option ParamTypes :=
  if param = EMPTY_32 then some (ParamTypes.new [.AnyZero])
  else if param = MAX_U128 then some (ParamTypes.new [.MaxUint128])
  else if param = MAX_U256 then some (ParamTypes.new [.AnyMax])
  else
    match (chunksOfPos 7 param).get? 0 with
    | none => none
    | some c0 =>
      if c0 = EMPTY_4 then guess_tail param
      else if c0 = MASK_4 then
        match (chunksOfPos 7 param).get? 1 with
        | none => none
        | some c1 =>
          if c1 = MASK_4 then some (ParamTypes.new [.Int])
          else some (ParamTypes.new [.Int, .String, .Bytes])
      else
        match (chunksOfPos 7 param).get? 1 with
        | none => none
        | some c1 =>
          if c1 = EMPTY_4 then some (ParamTypes.new [.Selector, .String, .Bytes])
          else guess_tail param

/-- Source `struct Calldata` (lib.rs 170-187). -/
structure Calldata where
  calldata : Str
  selector : Str
  main_details : List Params
  raw_params : List Str
  params : List Str
  nested_details : List Params
deriving Repr, DecidableEq

/-- The freshly built `Self` of `Calldata::new` before any parse stage
runs. -/
def Calldata.mk0 (cd : Str) : Calldata :=
  ⟨cd, [], [], [], [], []⟩

/-- One push of the legacy repack loop of `parse_selector` (lib.rs 245-255):
when the last accumulating param is full (64 characters) a fresh param is
started, then the 1-byte chunk is appended to the last param. The `params`
vector starts as `vec![String::new()]` and never shrinks, so `getLast?` never
misses at the call site. -/
def repackStep (params : List Str) (chunk : Str) : List Str :=
  match params.getLast? with
  | none => params
  | some last =>
    if last.length = 64 then params ++ [chunk]
    else params.dropLast ++ [last ++ chunk]

/-- The legacy repack loop of `parse_selector` over all 1-byte chunks. -/
def repack (chunks : List Str) : List Str :=
  chunks.foldl repackStep [[]]

/-- Source `Calldata::parse_selector` (lib.rs 216-258). The "0x" occurrences
are removed; a word-aligned input (`len % 64 == 0`) is chunked into 64s, the
selector is the first word's first 8 digits (`split_at(8)`, a panic if the
word is shorter) and its occurrences are removed from that word
(`raw_params[0].replace(&self.selector, "")`); otherwise the input is chunked
into bytes, the selector is the first 4 bytes (index panics on shorter
input), those bytes are cleared and the rest repacked into 64s. -/
def Calldata.parse_selector (s : Calldata) : Except Err Calldata :=
  let cd := replaceAll (str "0x") s.calldata
  if cd.length % 64 = 0 then
    match chunksOfPos 63 cd with
    | [] => .error .crash
    | w0 :: rest =>
      if 8 ≤ w0.length then
        .ok { s with calldata := cd, selector := w0.take 8,
                     raw_params := replaceAll (w0.take 8) w0 :: rest }
      else .error .crash
  else
    let chunks := chunksOfPos 1 cd
    match chunks.get? 0, chunks.get? 1, chunks.get? 2, chunks.get? 3 with
    | some b0, some b1, some b2, some b3 =>
      let cleared := (((chunks.set 0 []).set 1 []).set 2 []).set 3 []
      .ok { s with calldata := cd, selector := b0 ++ b1 ++ b2 ++ b3,
                   raw_params := repack cleared }
    | _, _, _, _ => .error .crash

/-- Source `Calldata::parse_len(params_64, from, len)` (lib.rs 339-370).
`split_at(from)` on the vector and `split_at(len * 2)` on the concatenation
panic when out of range. When `(len * 2) % 64 == 8` a nested record is pushed
(first 8 digits = selector, rest re-chunked into 64s) even when `len == 4`,
which then reports no skip; the `remainder == 56` branch is dead code and
falls through to `None`. Returns the updated `nested_details` plus the
optional skip count. -/
def parse_len (nested : List Params) (params_64 : List Str) (idx : Nat) (len : Nat) :
    Except Err (List Params × Option Nat) :=
  if idx ≤ params_64.length then
    let calldata := (params_64.drop idx).flatten
    if len * 2 ≤ calldata.length then
      let cut0 := calldata.take (len * 2)
      if (len * 2) % 64 = 8 then
        if 8 ≤ cut0.length then
          let nested2 := nested ++ [Params.new (cut0.take 8) (chunksOfPos 63 (cut0.drop 8))]
          if len = 4 then .ok (nested2, none)
          else .ok (nested2, some ((len - 8) * 2 / 64))
        else .error .crash
      else .ok (nested, none)
    else .error .crash
  else .error .crash

/-- The mutable state of the `parse_raw_params` loop (lib.rs 261-336): the
working copy `params.0`, the accumulated `self.nested_details`, the local
`offsets` table, the cursor `i` and the pending `skipping` count. -/
structure WalkState where
  params : List Str
  nested : List Params
  offsets : List (Nat × Nat × Nat)
  i : Nat
  skipping : Nat
deriving Repr, DecidableEq

/-- Lines 281-284: when `params.0[i]` (unchecked index) is `EMPTY_32`,
`add_padding(params.0, i, true)` rebuilds the word list and `i` advances one
extra position. -/
def pad_phase (st : WalkState) : Except Err WalkState :=
  match st.params.get? st.i with
  | none => .error .crash
  | some w0 =>
    if w0 = EMPTY_32 then
      match add_padding st.params st.i true with
      | none => .error .crash
      | some p => .ok { st with params := p, i := st.i + 1 }
    else .ok st

/-- Lines 296-312: the selector-found branch. The previous word is trimmed
and parsed as a `U128`; on success its `as_usize` feeds `parse_len`, and a
positive extraction rearranges the chunks and records the skip count. Parse
failures just keep the state. -/
def sel_branch (st : WalkState) (parsed1 : Str) : Except Err WalkState :=
  match last_raw st.params st.i with
  | none => .error .crash
  | some none => .ok st
  | some (some last) =>
    match u128_from_str_radix (last.dropWhile (fun c => c = '0')) with
    | none => .ok st
    | some v =>
      match as_usize v with
      | .error e => .error e
      | .ok vu =>
        match parse_len st.nested st.params st.i vu with
        | .error e => .error e
        | .ok (nested2, none) => .ok { st with nested := nested2 }
        | .ok (nested2, some skip) =>
          match rearrange_chunks st.params st.i parsed1 with
          | none => .error .crash
          | some (nc, _) =>
            .ok { st with params := nc, nested := nested2, skipping := skip }

/-- Lines 316-326: the offset/length candidate branch. A trimmed value of at
most 4 digits that parses, stays under `i * 64 + 1920` and is divisible by
64 is pushed into the (never consumed) offsets table. -/
def off_branch (st : WalkState) (trimmed : Str) : WalkState :=
  if trimmed.length ≤ 4 then
    match u128_from_str_radix trimmed with
    | none => st
    | some v =>
      if v < st.i * 64 + 1920 ∧ v % 64 = 0 then
        { st with offsets := st.offsets ++ [(st.i, v / 64, 0)] }
      else st
  else st

/-- Lines 286-326: after the padding phase, `params.0[i]` (unchecked index)
is scanned with `try_parse_selector`; a found selector (`!= EMPTY_4` and
`!= MASK_4`) goes to `sel_branch`, anything else to `off_branch`. -/
def scan_phase (st : WalkState) : Except Err WalkState :=
  match st.params.get? st.i with
  | none => .error .crash
  | some raw_param =>
    match try_parse_selector raw_param with
    | none => .error .crash
    | some parsed =>
      if parsed.1 ≠ EMPTY_4 ∧ parsed.1 ≠ MASK_4 then
        sel_branch st parsed.2
      else
        .ok (off_branch st (raw_param.dropWhile (fun c => c = '0')))

/-- One iteration of the `loop` of `parse_raw_params`: consume a pending
skip, run the padding phase, then the scan phase. -/
def walkBody (st0 : WalkState) : Except Err WalkState :=
  let st := if st0.skipping ≠ 0 then { st0 with i := st0.i + st0.skipping, skipping := 0 } else st0
  match pad_phase st with
  | .error e => .error e
  | .ok st2 => scan_phase st2

/-- The `loop` of `parse_raw_params` (lib.rs 274-333): the body always runs,
then `i += 1`, and the loop breaks only when `i` equals the length of the
original `self.raw_params` (not of the edited working copy). -/
def walk (raw_len : Nat) : Nat → WalkState → Except Err WalkState
  | 0, _ => .error .fuel
  | fuel + 1, st =>
    match walkBody st with
    | .error e => .error e
    | .ok st2 =>
      let st3 := { st2 with i := st2.i + 1 }
      if st3.i = raw_len then .ok st3 else walk raw_len fuel st3

/-- Source `Calldata::parse_raw_params` (lib.rs 261-336): runs the walk from
`(self.raw_params, i = 0, skipping = 0)` and stores the final working copy in
`self.params`; the offsets table is a local and is dropped. -/
def Calldata.parse_raw_params (s : Calldata) (fuel : Nat) : Except Err Calldata :=
  match walk s.raw_params.length fuel ⟨s.raw_params, s.nested_details, [], 0, 0⟩ with
  | .error e => .error e
  | .ok st => .ok { s with params := st.params, nested_details := st.nested }

/-- The inner loop of `guess_param_types` over one nested record's params
(lib.rs 381-384); `none` = a panic inside `guess_param_type`. -/
def typeParams : List Str → Option (List ParamTypes)
  | [] => some []
  | p :: rest =>
    match guess_param_type p, typeParams rest with
    | some t, some ts => some (t :: ts)
    | _, _ => none

/-- The outer loop of `guess_param_types` over `self.nested_details`
(lib.rs 377-388), setting each record's types. -/
def typeNested : List Params → Except Err (List Params)
  | [] => .ok []
  | pr :: rest =>
    match typeParams pr.params with
    | none => .error .crash
    | some ts =>
      match typeNested rest with
      | .error e => .error e
      | .ok rs => .ok ({ pr with types := ts } :: rs)

/-- Source `Calldata::guess_param_types` (lib.rs 373-404). After typing the
nested records, the main loop `for i in 0..self.params.len()` hits
`unimplemented!()` (a panic) as soon as `i > 0`. (The `i == 0` iteration's
call on line 399 passes the loop index where a word is expected — it does not
type-check in the source — and its result is pushed into a local that is
dropped, so it is modelled as a no-op.) -/
def Calldata.guess_param_types (s : Calldata) : Except Err Calldata :=
  match typeNested s.nested_details with
  | .error e => .error e
  | .ok nested2 =>
    if 1 < s.params.length then .error .crash
    else .ok { s with nested_details := nested2 }

/-- The two parsing stages of `Calldata::new` (lib.rs 199-200):
`parse_selector` then `parse_raw_params`. -/
def Calldata.parse_stages (calldata : Str) (fuel : Nat) : Except Err Calldata :=
  match Calldata.parse_selector (Calldata.mk0 calldata) with
  | .error e => .error e
  | .ok st => Calldata.parse_raw_params st fuel

/-- Source `Calldata::new` (lib.rs 190-203): the parse stages followed by
`guess_param_types`. -/
def Calldata.new (calldata : Str) (fuel : Nat) : Except Err Calldata :=
  match Calldata.parse_stages calldata fuel with
  | .error e => .error e
  | .ok st => Calldata.guess_param_types st

/-- The sanity loop of `is_offset` (lib.rs 459-468) over `count` elements
starting at `idx`: `some true` = the `return None` on the all-ones pattern
fired, `some false` = the loop completed, `none` = an index panic
(`chunks[7]` is only touched when `chunks[0]` matched, as in the source's
short-circuit `&&`). -/
def maskScan (params : List Str) : Nat → Nat → Option Bool
  | 0, _ => some false
  | count + 1, idx =>
    match params.get? idx with
    | none => none
    | some w =>
      let chunks := chunksOfPos 7 w
      match chunks.get? 0 with
      | none => none
      | some c0 =>
        if c0 = MASK_4 then
          match chunks.get? 7 with
          | none => none
          | some c7 =>
            if c7 = MASK_4 then some true
            else maskScan params count (idx + 1)
        else maskScan params count (idx + 1)

/-- Source `Calldata::is_offset(i)` (lib.rs 416-498). The result is
`none` for a panic (unchecked indexing, `as_usize` overflow, `split_off` out
of range) and `some r` for a normal return of `r`; every return statement of
the source is `None`, so `r` is always `none`. -/
def Calldata.is_offset (s : Calldata) (i : Nat) : Option (Option Nat) :=
  match s.params.get? i with
  | none => none
  | some w =>
    if (w.dropWhile (fun c => c = '0')).length ≤ 4 then
      match u128_from_str_radix (w.dropWhile (fun c => c = '0')) with
      | none => some none
      | some v =>
        if v % 64 = 0 then
          match as_usizeO (v / 32) with
          | none => none
          | some to_skip =>
            if s.params.length - 1 ≥ i + to_skip then
              match s.params.get? (i + to_skip) with
              | none => none
              | some wl =>
                match u128_from_str_radix (wl.dropWhile (fun c => c = '0')) with
                | none => some none
                | some len =>
                  match as_usizeO len with
                  | none => none
                  | some len_v =>
                    if s.params.length - 1 ≥ i + to_skip + len_v then some none
                    else if len_v % 2 = 0 then
                      match (if len_v > 32 then
                               (maskScan s.params (len_v - 1) (i + to_skip)).map
                                 (fun b => (b, len_v))
                             else some (false, i + to_skip + len_v)) with
                      | none => none
                      | some (true, _) => some none
                      | some (false, last_i) =>
                        match s.params.get? (i + to_skip + last_i) with
                        | none => none
                        | some last_element =>
                          if 64 - len_v % 32 * 2 ≤ last_element.length then
                            if 64 - len_v % 32 * 2 ≠ 0 then
                              if last_element.drop (64 - len_v % 32 * 2)
                                  ≠ List.replicate (64 - len_v % 32 * 2) '0' then
                                some none
                              else some none
                            else some none
                          else none
                    else some none
            else some none
        else some none
    else some none

/-- Definition following the words of the claim about the padding
adjustment as stated: insert exactly FOUR zero hex digits at the front of
the current word, trim exactly FOUR trailing hex digits from the sequence's
last word, and re-chunk the whole concatenation into 64-digit words. -/
def add_padding_claim (chunks : List Str) (current : Nat) : Option (List Str) :=
  match chunks.get? current with
  | none => none
  | some w =>
    let chunks1 := chunks.set current (str "0000" ++ w)
    match chunks1.get? (chunks1.length - 1) with
    | none => none
    | some last =>
      let chunks2 := chunks1.set (chunks1.length - 1) (last.take (last.length - 4))
      chunkify chunks2.flatten 64

/-- Definition following the words of the amended claim: insert exactly
EIGHT zero hex digits (four zero bytes) at the front of the current word,
truncate the sequence's last word to its first 56 hex digits (impossible —
and a panic in the source — when that word is shorter than 56), and re-chunk
the whole concatenation into 64-digit words. -/
def add_padding_amended (chunks : List Str) (current : Nat) : Option (List Str) :=
  match chunks.get? current with
  | none => none
  | some w =>
    let chunks1 := chunks.set current (str "00000000" ++ w)
    match chunks1.get? (chunks1.length - 1) with
    | none => none
    | some last =>
      if 56 ≤ last.length then
        chunkify ((chunks1.set (chunks1.length - 1) (last.take 56)).flatten) 64
      else none

/-- First argument word of the first Scenario C sub-call (value 1). -/
def scenarioCArgA : Str := List.replicate 63 '0' ++ ['1']

/-- Second argument word of the first Scenario C sub-call (an address,
left-padded). -/
def scenarioCArgB : Str :=
  List.replicate 24 '0' ++ str "c02aaa39b223fe8d0a0e5c4f27ead9083c756cc2"

/-- A Scenario C multicall calldata: selector `ac9650d8`, the outer offset
word `0x20`, the count word `2`, two per-element offset words (`0x40` and
`0xe0`), then the first sub-call's length word (`0x44` = 68 bytes), its
embedded selector `88316456` with two argument words and padding, the
all-zero boundary word, the second sub-call's length word (`4`, selector
only) and its embedded selector `12210e8a` with padding. (The shape of the
test vector of lib.rs 610 with a 2-word first sub-call: evaluating the
embedding on the full 19-word transaction exceeds the proof kernel's stack
on flat 1224-character lists, so the scenario is exercised at this size;
every framing decision of the walk is the same — legacy framing, both
extractions, the zero-word padding adjustment and the skip.) -/
def scenarioC : Str :=
  str "0xac9650d8"
    ++ (List.replicate 62 '0' ++ str "20")
    ++ (List.replicate 63 '0' ++ ['2'])
    ++ (List.replicate 62 '0' ++ str "40")
    ++ (List.replicate 62 '0' ++ str "e0")
    ++ (List.replicate 62 '0' ++ str "44")
    ++ (str "88316456" ++ List.replicate 56 '0')
    ++ (str "00000001" ++ List.replicate 24 '0' ++ str "c02aaa39b223fe8d0a0e5c4f27ead908")
    ++ (str "3c756cc2" ++ List.replicate 56 '0')
    ++ List.replicate 64 '0'
    ++ (List.replicate 63 '0' ++ ['4'])
    ++ (str "12210e8a" ++ List.replicate 56 '0')

/-- A word-aligned one-word input: the selector 12345678 followed by 56
zeros. -/
def c2Input : Str := str "12345678" ++ List.replicate 56 '0'

/-- A word-aligned two-word input whose second word is all-zero: selector
12345678, then 56 + 64 zeros. The padding adjustment on the all-zero word
advances the cursor past the end of the working copy. -/
def c3Input : Str := str "12345678" ++ List.replicate 56 '0' ++ List.replicate 64 '0'

/-- A word-aligned two-word input that parses cleanly: selector 12345678,
then 56 zeros (rest of word 0) and a second word of value 1. -/
def c10wInput : Str :=
  str "12345678" ++ List.replicate 56 '0' ++ (List.replicate 63 '0' ++ ['1'])

/-- The result of the parse stages on `c10wInput`: the walk neither pads nor
extracts, so `params` equals `raw_params`. -/
def c10wParsed : Calldata :=
  ⟨c10wInput, str "12345678", [], [List.replicate 56 '0', List.replicate 63 '0' ++ ['1']],
   [List.replicate 56 '0', List.replicate 63 '0' ++ ['1']], []⟩

/-- A directly constructed record whose single param word trims to more than
4 digits, so `is_offset 0` returns (`Option.some`) the Rust `None`. -/
def c6wCd : Calldata :=
  ⟨[], [], [], [], [List.replicate 64 '1'], []⟩


/-! Lemmas about the chunker. -/

theorem chunksOfPos_nil (n : Nat) : chunksOfPos n [] = [] := rfl

theorem chunksGo_congr (n : Nat) :
    ∀ f g t, t.length ≤ f → t.length ≤ g → chunksGo n f t = chunksGo n g t := by
  intro f
  induction f with
  | zero =>
    intro g t hf _
    have ht0 : t = [] := List.eq_nil_of_length_eq_zero (Nat.le_zero.mp hf)
    subst ht0
    cases g <;> rfl
  | succ f ih =>
    intro g t hf hg
    match t, g with
    | [], g => cases g <;> rfl
    | c :: cs, 0 => simp at hg
    | c :: cs, g + 1 =>
      simp only [chunksGo]
      congr 1
      simp only [List.length_cons] at hf hg
      exact ih g (cs.drop n) (by simp only [List.length_drop]; omega)
        (by simp only [List.length_drop]; omega)

theorem chunksOfPos_cons (n : Nat) (c : Char) (cs : Str) :
    chunksOfPos n (c :: cs) = (c :: cs.take n) :: chunksOfPos n (cs.drop n) := by
  have h1 : chunksOfPos n (c :: cs) = (c :: cs.take n) :: chunksGo n cs.length (cs.drop n) := by
    simp [chunksOfPos, chunksGo]
  rw [h1]
  unfold chunksOfPos
  congr 1
  exact chunksGo_congr n cs.length (cs.drop n).length (cs.drop n)
    (by simp only [List.length_drop]; omega) le_rfl

theorem chunksOfPos_flatten (n : Nat) (s : Str) : (chunksOfPos n s).flatten = s := by
  have H : ∀ k (t : Str), t.length ≤ k → (chunksOfPos n t).flatten = t := by
    intro k
    induction k with
    | zero =>
      intro t ht
      have ht0 : t = [] := List.eq_nil_of_length_eq_zero (Nat.le_zero.mp ht)
      subst ht0
      simp [chunksOfPos_nil]
    | succ k ih =>
      intro t ht
      match t with
      | [] => simp [chunksOfPos_nil]
      | c :: cs =>
        have hcs : cs.length ≤ k := by
          simp only [List.length_cons] at ht
          omega
        rw [chunksOfPos_cons, List.flatten_cons,
            ih (cs.drop n) (by simp only [List.length_drop]; omega)]
        simp [List.take_append_drop]
  exact H s.length s le_rfl

theorem chunksOfPos_length (n : Nat) (s : Str) :
    (chunksOfPos n s).length = (s.length + n) / (n + 1) := by
  have H : ∀ k (t : Str), t.length ≤ k →
      (chunksOfPos n t).length = (t.length + n) / (n + 1) := by
    intro k
    induction k with
    | zero =>
      intro t ht
      have ht0 : t = [] := List.eq_nil_of_length_eq_zero (Nat.le_zero.mp ht)
      subst ht0
      simp [chunksOfPos_nil, Nat.div_eq_of_lt (Nat.lt_succ_self n)]
    | succ k ih =>
      intro t ht
      match t with
      | [] => simp [chunksOfPos_nil, Nat.div_eq_of_lt (Nat.lt_succ_self n)]
      | c :: cs =>
        have hcs : cs.length ≤ k := by
          simp only [List.length_cons] at ht
          omega
        rw [chunksOfPos_cons]
        simp only [List.length_cons]
        rw [ih (cs.drop n) (by simp only [List.length_drop]; omega)]
        simp only [List.length_drop]
        rcases Nat.le_total n cs.length with h | h
        · have h1 : cs.length - n + n = cs.length := by omega
          have h2 : cs.length + 1 + n = cs.length + (n + 1) := by omega
          rw [h1, h2, Nat.add_div_right _ (Nat.succ_pos n)]
        · have h1 : cs.length - n = 0 := by omega
          have h2 : cs.length + 1 + n = cs.length + (n + 1) := by omega
          rw [h1, h2, Nat.add_div_right _ (Nat.succ_pos n), Nat.zero_add,
              Nat.div_eq_of_lt (by omega), Nat.div_eq_of_lt (by omega)]
  exact H s.length s le_rfl

theorem chunksOfPos_dropLast (n : Nat) (s : Str) :
    ∀ p ∈ (chunksOfPos n s).dropLast, p.length = n + 1 := by
  have H : ∀ k (t : Str), t.length ≤ k →
      ∀ p ∈ (chunksOfPos n t).dropLast, p.length = n + 1 := by
    intro k
    induction k with
    | zero =>
      intro t ht
      have ht0 : t = [] := List.eq_nil_of_length_eq_zero (Nat.le_zero.mp ht)
      subst ht0
      simp [chunksOfPos_nil]
    | succ k ih =>
      intro t ht
      match t with
      | [] => simp [chunksOfPos_nil]
      | c :: cs =>
        have hcs : cs.length ≤ k := by
          simp only [List.length_cons] at ht
          omega
        rw [chunksOfPos_cons]
        by_cases hd : cs.drop n = []
        · rw [hd, chunksOfPos_nil]
          simp
        · have hlen : n < cs.length := by
            by_contra hle
            push_neg at hle
            exact hd (List.drop_eq_nil_of_le hle)
          have hne : chunksOfPos n (cs.drop n) ≠ [] := by
            cases hd2 : cs.drop n with
            | nil => exact absurd hd2 hd
            | cons d ds =>
              rw [chunksOfPos_cons]
              simp
          obtain ⟨q, qs, hq⟩ := List.exists_cons_of_ne_nil hne
          rw [hq]
          intro p hp
          rw [List.dropLast_cons₂] at hp
          rcases List.mem_cons.mp hp with hp | hp
          · subst hp
            simp only [List.length_cons, List.length_take]
            omega
          · exact ih (cs.drop n) (by simp only [List.length_drop]; omega) p (by rw [hq]; exact hp)
  exact fun p hp => H s.length s le_rfl p hp

/-- Claim C9 counterexample: `chunk` is claimed total with no failure mode
for EVERY width, but at width 0 the underlying `slice::chunks` panics (here:
returns `none`) already on the one-character text "a". -/
theorem c9_chunk_width_zero_counterexample : chunkify ['a'] 0 = none := rfl

/-- Claim C9 (amended): for every text `s` and every POSITIVE chunk width
`n`, `chunkify s n` succeeds and returns exactly `ceil (len s / n)` pieces
whose concatenation reconstructs `s`, every piece except possibly the last
having length `n`; width 0 makes the underlying `slice::chunks` panic. -/
theorem c9_chunk_positive_width_amended (s : Str) (n : Nat) (h : 0 < n) :
    ∃ ps, chunkify s n = some ps ∧ ps.length = (s.length + n - 1) / n
      ∧ ps.flatten = s ∧ ∀ p ∈ ps.dropLast, p.length = n := by
  obtain ⟨m, rfl⟩ : ∃ m, n = m + 1 := ⟨n - 1, by omega⟩
  refine ⟨chunksOfPos m s, rfl, ?_, chunksOfPos_flatten m s, chunksOfPos_dropLast m s⟩
  rw [chunksOfPos_length]
  congr 1

/-- Witness for C9 (amended) at the text "abcde" and width 2. -/
theorem c9_chunk_positive_width_amended_witness :
    ∃ ps, chunkify (str "abcde") 2 = some ps
      ∧ ps.length = ((str "abcde").length + 2 - 1) / 2
      ∧ ps.flatten = str "abcde" ∧ ∀ p ∈ ps.dropLast, p.length = 2 :=
  c9_chunk_positive_width_amended (str "abcde") 2 (by decide)

/-- Claim C1: on the Scenario C multicall calldata the two parse stages
yield exactly 2 nested CallRecords whose selectors are the embedded
88316456 (with its two argument words) and 12210e8a (selector only) — but
`Calldata::new` itself never returns them: its final stage
`guess_param_types` hits `unimplemented!()` at loop index 1 (the params list
has 11 words), so the construction panics instead of completing (code
bug). -/
theorem c1_multicall_two_nested_records :
    (Calldata.parse_stages scenarioC 64).map (fun c => c.nested_details)
      = .ok [⟨str "88316456", [scenarioCArgA, scenarioCArgB], []⟩,
             ⟨str "12210e8a", [], []⟩]
    ∧ Calldata.new scenarioC 64 = .error .crash := by
  constructor
  · decide
  · decide

/-- Claim C3: the claimed `IndexOutOfRange` error outcome does not exist in
the code — out-of-bounds accesses are unchecked Vec indexing and panic. On
the word-aligned input 12345678 followed by 120 zeros, `parse_selector`
succeeds (two raw words), then the walk pads the trailing all-zero word,
advances the cursor past the end of the shrunken working copy and panics at
`params.0[2]` (code bug). -/
theorem c3_index_out_of_range_panics :
    (Calldata.parse_selector (Calldata.mk0 c3Input)).map (fun st => st.raw_params.length)
      = .ok 2
    ∧ Calldata.parse_stages c3Input 10 = .error .crash :=
  ⟨rfl, rfl⟩

/-- Claim C4: the claimed `MalformedFraming` error outcome does not exist in
the code — on the empty input `parse_selector` takes the word-aligned branch
(0 mod 64 = 0), `chunkify` yields no words and `self.raw_params[0]` panics
(code bug). -/
theorem c4_empty_input_panics :
    Calldata.parse_selector (Calldata.mk0 []) = .error .crash
    ∧ Calldata.new [] 10 = .error .crash :=
  ⟨rfl, rfl⟩

/-- Claim C8: classifying the word of 32 hex "f" digits followed by 32 zero
digits (the spec-modelled `MAX_U128` constant) yields exactly the singleton
candidate set containing `MaxUint128`. -/
theorem c8_max_u128_classification :
    guess_param_type (List.replicate 32 'f' ++ List.replicate 32 '0')
      = some (ParamTypes.new [Types.MaxUint128]) :=
  rfl

/-- Claim C2 counterexample: on the word-aligned input 12345678 followed by
56 zeros, the first parameter word after `parse_selector` is the 56
remaining zeros — the selector digits are REMOVED (so the word has length
56, not 64), not replaced by zeros as claimed (the zero-blanked word would
be `EMPTY_4 ++ 56 zeros`, which the result does not equal). -/
theorem c2_selector_not_zero_blanked_counterexample :
    (Calldata.parse_selector (Calldata.mk0 c2Input)).map
        (fun st => (st.selector, st.raw_params.map List.length))
      = .ok (str "12345678", [56])
    ∧ (Calldata.parse_selector (Calldata.mk0 c2Input)).map
        (fun st => st.raw_params.get? 0)
      = .ok (some (List.replicate 56 '0'))
    ∧ List.replicate 56 '0' ≠ EMPTY_4 ++ List.replicate 56 '0' :=
  ⟨rfl, rfl, by decide⟩

/-- Every error of `typeNested` is the panic of a `guess_param_type` call:
the fuel error never arises in the typing stage. -/
theorem typeNested_error_crash :
    ∀ l e, typeNested l = .error e → e = .crash := by
  intro l
  induction l with
  | nil =>
    intro e h
    simp [typeNested] at h
  | cons pr rest ih =>
    intro e h
    unfold typeNested at h
    cases hp : typeParams pr.params with
    | none =>
      rw [hp] at h
      cases h
      rfl
    | some ts =>
      rw [hp] at h
      cases hr : typeNested rest with
      | error e2 =>
        rw [hr] at h
        cases h
        exact ih _ hr
      | ok rs =>
        rw [hr] at h
        cases h

/-- Claim C10: whenever the parse stages leave more than one word in
`params`, `Calldata::new` does not complete — the per-word type-guessing
stage panics (`unimplemented!()` once the loop index exceeds 0), so no
constructed record with top-level per-word annotations is ever produced for
multi-parameter calldata. -/
theorem c10_multiword_params_never_complete (input : Str) (fuel : Nat) (c : Calldata)
    (h : Calldata.parse_stages input fuel = .ok c) (h2 : 1 < c.params.length) :
    Calldata.new input fuel = .error .crash := by
  unfold Calldata.new
  rw [h]
  show Calldata.guess_param_types c = .error .crash
  unfold Calldata.guess_param_types
  cases ht : typeNested c.nested_details with
  | error e =>
    have he : e = .crash := typeNested_error_crash c.nested_details e ht
    subst he
    rfl
  | ok nested2 =>
    simp [h2]

/-- Witness for C10: the two-word input `c10wInput` parses to `c10wParsed`
(2 parameter words), and its construction panics. -/
theorem c10_multiword_params_never_complete_witness :
    Calldata.new c10wInput 10 = .error .crash :=
  c10_multiword_params_never_complete c10wInput 10 c10wParsed (by decide) (by decide)

/-- Claim C7: the word classifier is total over every 64-hex-digit input
with a non-empty candidate set; the all-zero word yields exactly
AnyZero and the all-maximal word exactly AnyMax. -/
theorem c7_classifier_total_nonempty :
    (∀ w : Str, w.length = 64 → ∃ ts, guess_param_type w = some ts ∧ ts ≠ [])
    ∧ guess_param_type (List.replicate 64 '0') = some [Types.AnyZero]
    ∧ guess_param_type (List.replicate 64 'f') = some [Types.AnyMax] := by
  refine ⟨?_, by decide, by decide⟩
  intro w hw
  have hch : (chunksOfPos 7 w).length = 8 := by
    rw [chunksOfPos_length, hw]
  obtain ⟨c0, t1, h1⟩ : ∃ c0 t1, chunksOfPos 7 w = c0 :: t1 := by
    cases h : chunksOfPos 7 w with
    | nil =>
      rw [h] at hch
      simp at hch
    | cons a b => exact ⟨a, b, rfl⟩
  obtain ⟨c1, t2, h2⟩ : ∃ c1 t2, t1 = c1 :: t2 := by
    cases h : t1 with
    | nil =>
      rw [h1, h] at hch
      simp at hch
    | cons a b => exact ⟨a, b, rfl⟩
  subst h2
  unfold guess_param_type guess_tail
  rw [h1]
  simp only [List.get?_cons_zero, List.get?_cons_succ]
  repeat' split
  all_goals exact ⟨_, rfl, by simp [ParamTypes.new]⟩

/-- Witness for C7 at the all-zero word. -/
theorem c7_classifier_total_nonempty_witness :
    ∃ ts, guess_param_type (List.replicate 64 '0') = some ts ∧ ts ≠ [] :=
  c7_classifier_total_nonempty.1 (List.replicate 64 '0') (by decide)

/-- Claim C6: the dynamic-region detector never affirmatively confirms a
region — whenever `is_offset` returns at all (every non-panicking path),
the returned value is the Rust `None`; no `Some` is ever produced, for any
record and any index. -/
theorem c6_is_offset_never_confirms (s : Calldata) (i : Nat) (r : Option Nat)
    (h : s.is_offset i = some r) : r = none := by
  unfold Calldata.is_offset at h
  repeat' split at h
  all_goals simp_all

/-- Witness for C6: a record with a single 64-ones parameter word, at index
0. -/
theorem c6_is_offset_never_confirms_witness :
    (none : Option Nat) = none ∧ c6wCd.is_offset 0 = some none :=
  ⟨c6_is_offset_never_confirms c6wCd 0 none (by decide), by decide⟩

/-- Claim C5 counterexample: on the two-word sequence [all-zero word, 64
ones], the source adjustment (which inserts `EMPTY_4` — EIGHT zero hex
digits — and keeps the last word's first 56 digits) differs from the
claimed four-digit insertion and four-digit trimming. -/
theorem c5_four_digit_padding_counterexample :
    add_padding [EMPTY_32, List.replicate 64 '1'] 0 true
      ≠ add_padding_claim [EMPTY_32, List.replicate 64 '1'] 0 := by
  decide

/-- Claim C5 (amended): the adjustment on an all-zero current word inserts
exactly EIGHT zero hex digits (four zero bytes) at the front of that word,
truncates the sequence's last word to its first 56 hex digits, and
re-chunks the concatenation into 64-digit words (first conjunct: the source
`add_padding` equals the amended description on every input, panics
included); and the walk's padding phase advances the cursor one extra
position (second conjunct). -/
theorem c5_eight_digit_padding_amended :
    (∀ chunks cur, add_padding chunks cur true = add_padding_amended chunks cur)
    ∧ (∀ st : WalkState, st.params.get? st.i = some EMPTY_32 →
        ∀ st2, pad_phase st = .ok st2 → st2.i = st.i + 1) := by
  constructor
  · intro chunks cur
    unfold add_padding add_padding_amended
    have he : EMPTY_4 = str "00000000" := by decide
    rw [he]
    simp
  · intro st hst st2 h2
    unfold pad_phase at h2
    rw [hst] at h2
    simp only [if_pos rfl] at h2
    cases hap : add_padding st.params st.i true with
    | none =>
      rw [hap] at h2
      cases h2
    | some p =>
      rw [hap] at h2
      cases h2
      rfl

/-- Witness for C5 (amended) on the state [all-zero, all-zero] at cursor
0: the padding phase moves the cursor to 1 = 0 + 1. -/
theorem c5_eight_digit_padding_amended_witness :
    (⟨[EMPTY_32, EMPTY_32], [], [], 1, 0⟩ : WalkState).i = 0 + 1 :=
  c5_eight_digit_padding_amended.2 ⟨[EMPTY_32, EMPTY_32], [], [], 0, 0⟩ (by decide)
    ⟨[EMPTY_32, EMPTY_32], [], [], 1, 0⟩ (by decide)

/-- Claim C2 (amended): for every nonempty word-aligned input without "0x"
occurrences, the selector is the first word's leading 8 hex digits, and the
first parameter word is the first word with the occurrences of the selector
REMOVED (Rust `replace` by the empty string) — leaving its 56 remaining
digits when the selector occurs only at the front — not zero-blanked. -/
theorem c2_selector_removed_amended (s : Str) (h0 : replaceAll (str "0x") s = s)
    (h64 : s.length % 64 = 0) (hne : s ≠ []) :
    ∃ st, Calldata.parse_selector (Calldata.mk0 s) = .ok st
      ∧ st.selector = s.take 8
      ∧ st.raw_params
          = replaceAll (s.take 8) (s.take 64) :: chunksOfPos 63 (s.drop 64) := by
  have hlen : 64 ≤ s.length := by
    have hpos : 0 < s.length := List.length_pos.mpr hne
    exact Nat.le_of_dvd hpos (Nat.dvd_of_mod_eq_zero h64)
  rcases s with _ | ⟨c, cs⟩
  · exact absurd rfl hne
  · have hcs : 63 ≤ cs.length := by
      simp only [List.length_cons] at hlen
      omega
    unfold Calldata.parse_selector Calldata.mk0
    simp only [h0]
    rw [if_pos h64, chunksOfPos_cons]
    simp only []
    have hw0 : (8 : Nat) ≤ (c :: cs.take 63).length := by
      simp only [List.length_cons, List.length_take]
      omega
    rw [if_pos hw0]
    refine ⟨_, rfl, ?_, ?_⟩
    · show (c :: cs.take 63).take 8 = (c :: cs).take 8
      simp [List.take_take]
    · show replaceAll ((c :: cs.take 63).take 8) (c :: cs.take 63)
            :: chunksOfPos 63 (cs.drop 63)
          = replaceAll ((c :: cs).take 8) ((c :: cs).take 64)
            :: chunksOfPos 63 ((c :: cs).drop 64)
      rw [List.take_succ_cons, List.drop_succ_cons]
      congr 2
      simp [List.take_take]

/-- Witness for C2 (amended) at `c2Input`. -/
theorem c2_selector_removed_amended_witness :
    ∃ st, Calldata.parse_selector (Calldata.mk0 c2Input) = .ok st
      ∧ st.selector = c2Input.take 8
      ∧ st.raw_params
          = replaceAll (c2Input.take 8) (c2Input.take 64)
            :: chunksOfPos 63 (c2Input.drop 64) :=
  c2_selector_removed_amended c2Input (by decide) (by decide) (by decide)
